import Mathlib

/-!
Verification of the FloorPlanGenie space-layout optimizer.

Shallow embedding of the placement / corridor / statistics code of
`intelligent_placement_engine.py` and `space_optimizer.py`.
Coordinates are modelled as rationals; external geometric library calls
(shapely distances and intersection tests, scipy's differential evolution)
are taken as explicit function parameters, and networkx's
`minimum_spanning_tree` (default Kruskal) is modelled by a Kruskal
implementation over the squared-distance key (sorting by squared distance
agrees with sorting by distance since square root is monotone).
-/

/-- A 2-D point (meters). -/
structure Pt where
  x : ℚ
  y : ℚ
deriving DecidableEq, Repr

/-- A wall segment: ordered pair of points. -/
structure Seg where
  a : Pt
  b : Pt
deriving DecidableEq, Repr

/-- Width/height pair (building dimensions or box dimensions). -/
structure Dims where
  width : ℚ
  height : ℚ
deriving DecidableEq, Repr

/-- A point of the engine's available-space grid
(`_create_spatial_framework` entries: x, y, wall distance, accessibility score). -/
structure GridPoint where
  x : ℚ
  y : ℚ
  wallDistance : ℚ
  accScore : ℚ
deriving DecidableEq, Repr

/-- A placed box as built by `_params_to_boxes`
(dict with x, y, width, height, center, accessibility_score). -/
structure PBox where
  x : ℚ
  y : ℚ
  width : ℚ
  height : ℚ
  cx : ℚ
  cy : ℚ
  accScore : ℚ
deriving DecidableEq, Repr

/-- A corridor rectangle (x, y, width, height). -/
structure Corridor where
  x : ℚ
  y : ℚ
  width : ℚ
  height : ℚ
deriving DecidableEq, Repr

/-- `IntelligentPlacementEngine._boxes_overlap`: two box dicts overlap unless
one lies (weakly) to the left/right/above/below the other. -/
def boxesOverlap (b1 b2 : PBox) : Bool :=
  !(decide (b1.x + b1.width ≤ b2.x) || decide (b2.x + b2.width ≤ b1.x) ||
    decide (b1.y + b1.height ≤ b2.y) || decide (b2.y + b2.height ≤ b1.y))

/-- `SpaceOptimizer._rectangles_overlap`: positional-argument variant of the
same disjointness test (`x1 >= x2 + w2 or ...`). -/
def rectanglesOverlap (x1 y1 w1 h1 x2 y2 w2 h2 : ℚ) : Bool :=
  !(decide (x2 + w2 ≤ x1) || decide (x1 + w1 ≤ x2) ||
    decide (y2 + h2 ≤ y1) || decide (y1 + h1 ≤ y2))

/-- The open interior of the two rectangles meets at a common point. -/
def interiorsMeet (x1 y1 w1 h1 x2 y2 w2 h2 : ℚ) : Prop :=
  ∃ px py : ℚ,
    (x1 < px ∧ px < x1 + w1 ∧ y1 < py ∧ py < y1 + h1) ∧
    (x2 < px ∧ px < x2 + w2 ∧ y2 < py ∧ py < y2 + h2)

/-! ## Layout profiles (`IntelligentPlacementEngine.__init__` / `optimize_placement`) -/

/-- One entry of `self.layout_profiles` (coverage, box_size_factor, spacing_factor). -/
structure LayoutProfile where
  coverage : ℚ
  boxSizeFactor : ℚ
  spacingFactor : ℚ
deriving DecidableEq, Repr

/-- The fixed profile catalog `self.layout_profiles`. -/
def layoutProfiles : List (String × LayoutProfile) :=
  [("10%", ⟨1/10, 4/5, 3/2⟩), ("25%", ⟨1/4, 1, 6/5⟩),
   ("30%", ⟨3/10, 11/10, 1⟩), ("35%", ⟨7/20, 6/5, 4/5⟩)]

/-- Dictionary lookup `self.layout_profiles[key]` as an option. -/
def lookupLayoutProfile (s : String) : Option LayoutProfile :=
  (layoutProfiles.find? (fun p => p.1 == s)).map Prod.snd

/-- The `'25%'` profile. -/
def profile25 : LayoutProfile := ⟨1/4, 1, 6/5⟩

/-- `optimize_placement` line: `self.layout_profiles.get(layout_profile,
self.layout_profiles['25%'])`. -/
def resolveLayoutProfile (s : String) : LayoutProfile :=
  (lookupLayoutProfile s).getD profile25

/-! ## `_params_to_boxes` -/

/-- Python `int()` truncation toward zero on a rational. -/
def pyInt (q : ℚ) : ℤ := q.num.tdiv q.den

/-- `int(params[i]) % len(available_points)` (Python `%` is Euclidean for a
positive modulus, as is `Int.emod`). -/
def pointIdx (p : ℚ) (len : ℕ) : ℕ := ((pyInt p) % (len : ℤ)).toNat

/-- The loop `for i in range(0, len(params), 2)` reads parameters in pairs
`(point_index, use_flag)`; a trailing odd parameter is skipped
(`if i + 1 < len(params)`). -/
def toPairs : List ℚ → List (ℚ × ℚ)
  | p :: f :: rest => (p, f) :: toPairs rest
  | _ => []

/-- The box lies inside the building rectangle (the containment test of
`_params_to_boxes`). -/
def inBuildingBounds (dims : Dims) (b : PBox) : Prop :=
  0 ≤ b.x ∧ 0 ≤ b.y ∧ b.x + b.width ≤ dims.width ∧ b.y + b.height ≤ dims.height

instance (dims : Dims) (b : PBox) : Decidable (inBuildingBounds dims b) := by
  unfold inBuildingBounds
  infer_instance

/-- The box dict built by `_params_to_boxes` for one `(point_index, use_flag)`
pair: centered on the selected grid point, with the adjusted dimensions. -/
def candidateBox (points : List GridPoint) (bd : Dims) (p : ℚ) : PBox :=
  let pt := points.getD (pointIdx p points.length) ⟨0, 0, 0, 0⟩
  ⟨pt.x - bd.width / 2, pt.y - bd.height / 2,
   bd.width, bd.height, pt.x, pt.y, pt.accScore⟩

/-- One iteration of the `_params_to_boxes` loop body: threshold the use
flag, build the box centered on the grid point, keep it only if it is inside
the building bounds and overlaps no previously accepted box. -/
def placeStep (points : List GridPoint) (bd dims : Dims) (acc : List PBox)
    (pf : ℚ × ℚ) : List PBox :=
  if 1/2 < pf.2 then
    if inBuildingBounds dims (candidateBox points bd pf.1) then
      if acc.any (fun e => boxesOverlap (candidateBox points bd pf.1) e) then acc
      else acc ++ [candidateBox points bd pf.1]
    else acc
  else acc

/-- `IntelligentPlacementEngine._params_to_boxes`. -/
def paramsToBoxes (params : List ℚ) (points : List GridPoint) (bd dims : Dims) :
    List PBox :=
  (toPairs params).foldl (placeStep points bd dims) []

/-- Squared Euclidean separation between two axis-aligned rectangles: zero
exactly when the closed rectangles touch or overlap. -/
def rectSepSq (p q : PBox) : ℚ :=
  (max 0 (max (q.x - (p.x + p.width)) (p.x - (q.x + q.width)))) ^ 2 +
  (max 0 (max (q.y - (p.y + p.height)) (p.y - (q.y + q.height)))) ^ 2

/-! ## `_calculate_advanced_statistics` -/

/-- The statistics record returned by `_calculate_advanced_statistics`
(the fields involving square roots of inter-box distances — the mean, min
and max spacing computed with `pdist` — are outside the rational model and
are not carried). -/
structure AdvStats where
  totalBoxes : ℕ
  totalCorridors : ℕ
  totalArea : ℚ
  boxArea : ℚ
  corridorArea : ℚ
  utilizationRate : ℚ
  corridorEfficiency : ℚ
  wastedSpace : ℚ
deriving DecidableEq, Repr

/-- `IntelligentPlacementEngine._calculate_advanced_statistics`. -/
def calculateAdvancedStatistics (boxes : List PBox) (corridors : List Corridor)
    (dims : Dims) : AdvStats :=
  let totalArea := dims.width * dims.height
  let boxArea := (boxes.map (fun b => b.width * b.height)).sum
  let corridorArea := (corridors.map (fun c => c.width * c.height)).sum
  { totalBoxes := boxes.length
    totalCorridors := corridors.length
    totalArea := totalArea
    boxArea := boxArea
    corridorArea := corridorArea
    utilizationRate := if 0 < totalArea then boxArea / totalArea * 100 else 0
    corridorEfficiency :=
      if 0 < boxArea + corridorArea then
        corridorArea / (boxArea + corridorArea) * 100
      else 0
    wastedSpace := totalArea - boxArea - corridorArea }

/-! ## `_validate_constraints` -/

/-- A restricted zone as read by `_validate_constraints`: rectangle fields
plus the optional `'polygon'` key. -/
structure Zone where
  x : ℚ
  y : ℚ
  width : ℚ
  height : ℚ
  polygon : Option (List Pt)
deriving DecidableEq, Repr

/-- The slice of `plan_data` read by `_validate_constraints`:
dimensions, walls, and the `no_entry` zones. -/
structure PlanData where
  dims : Dims
  walls : List Seg
  noEntry : List Zone
deriving DecidableEq, Repr

/-- The candidate rectangle `new_box` built from position and dimensions. -/
structure BRect where
  x : ℚ
  y : ℚ
  width : ℚ
  height : ℚ
deriving DecidableEq, Repr

/-- One entry appended to the `violations` list of `_validate_constraints`
(the Python code renders each as a message string; the constructor records
which check fired, with the same per-wall distance datum the string embeds). -/
inductive Violation where
  | wallTooClose (d : ℚ)
  | leftBoundary
  | bottomBoundary
  | rightBoundary
  | topBoundary
  | zoneIntersect
deriving DecidableEq, Repr

/-- The `violations` list accumulated by `_validate_constraints`, in append
order: every wall closer than 0.5 m (shapely `wall_line.distance(box_polygon)`
is the parameter `dist`), then the four 0.3 m boundary-margin checks, then
every `no_entry` zone carrying a polygon that intersects the candidate
(shapely `zone_polygon.intersects(box_polygon)` is the parameter `inter`).
No check short-circuits. -/
def validateViolations (dist : Seg → BRect → ℚ) (inter : List Pt → BRect → Bool)
    (pos : Pt) (nd : Dims) (plan : PlanData) : List Violation :=
  (plan.walls.filterMap fun w =>
    if dist w ⟨pos.x, pos.y, nd.width, nd.height⟩ < 1/2 then
      some (Violation.wallTooClose (dist w ⟨pos.x, pos.y, nd.width, nd.height⟩))
    else none) ++
  ((if pos.x < 3/10 then [Violation.leftBoundary] else []) ++
   ((if pos.y < 3/10 then [Violation.bottomBoundary] else []) ++
    ((if plan.dims.width - 3/10 < pos.x + nd.width then [Violation.rightBoundary]
      else []) ++
     ((if plan.dims.height - 3/10 < pos.y + nd.height then [Violation.topBoundary]
       else []) ++
      (plan.noEntry.filterMap fun z =>
        z.polygon.bind fun poly =>
          if inter poly ⟨pos.x, pos.y, nd.width, nd.height⟩ then
            some Violation.zoneIntersect
          else none)))))

/-- `IntelligentPlacementEngine._validate_constraints` returns only the
boolean `len(violations) == 0`. -/
def validateConstraints (dist : Seg → BRect → ℚ) (inter : List Pt → BRect → Bool)
    (pos : Pt) (nd : Dims) (plan : PlanData) : Bool :=
  (validateViolations dist inter pos nd plan).length == 0

/-! ## Corridor network (`_generate_corridor_network`,
`_create_minimum_spanning_tree`) -/

/-- Squared Euclidean distance between two centers. The code weights MST
edges with `sqrt` of this; sorting by the square agrees with sorting by the
distance, and the distance vanishes exactly when the square does. -/
def sqDist (p q : ℚ × ℚ) : ℚ := (p.1 - q.1) ^ 2 + (p.2 - q.2) ^ 2

/-- The complete-graph edge list built by `_create_minimum_spanning_tree`'s
nested loops `for i in range(n): for j in range(i + 1, n)`. -/
def completeEdges (n : ℕ) : List (ℕ × ℕ) :=
  (List.range n).flatMap fun i =>
    ((List.range n).filter fun j => i < j).map fun j => (i, j)

/-- Weight key of an edge: squared distance between its endpoint centers. -/
def edgeKey (pts : List (ℚ × ℚ)) (e : ℕ × ℕ) : ℚ :=
  sqDist (pts.getD e.1 (0, 0)) (pts.getD e.2 (0, 0))

/-- Stable insertion into a weight-sorted edge list. -/
def insertSorted (key : ℕ × ℕ → ℚ) (e : ℕ × ℕ) :
    List (ℕ × ℕ) → List (ℕ × ℕ)
  | [] => [e]
  | f :: t => if key e < key f then e :: f :: t else f :: insertSorted key e t

/-- Sort of the edge list by weight (networkx's Kruskal sorts the edges by
weight with Python's stable sort). -/
def sortEdges (key : ℕ × ℕ → ℚ) : List (ℕ × ℕ) → List (ℕ × ℕ)
  | [] => []
  | e :: t => insertSorted key e (sortEdges key t)

/-- One Kruskal union–find step on the state (component label per node,
accepted edges): keep the edge iff its endpoints carry different labels, and
merge the two label classes. -/
def kruskalStep (st : List ℕ × List (ℕ × ℕ)) (e : ℕ × ℕ) :
    List ℕ × List (ℕ × ℕ) :=
  if st.1.getD e.1 0 = st.1.getD e.2 0 then st
  else
    (st.1.map fun l => if l = st.1.getD e.2 0 then st.1.getD e.1 0 else l,
     st.2 ++ [e])

/-- Kruskal's algorithm over a weight-sorted edge list (this models
`networkx.minimum_spanning_tree`, whose default algorithm is Kruskal). -/
def kruskalMST (n : ℕ) (es : List (ℕ × ℕ)) : List (ℕ × ℕ) :=
  (es.foldl kruskalStep (List.range n, [])).2

/-- `_create_minimum_spanning_tree`: complete graph over the given centers
with distance weights, reduced to its minimum spanning tree. -/
def mstEdges (pts : List (ℚ × ℚ)) : List (ℕ × ℕ) :=
  kruskalMST pts.length (sortEdges (edgeKey pts) (completeEdges pts.length))

/-- Center of a placed box (the `'center'` dict entry). -/
def centerOf (b : PBox) : ℚ × ℚ := (b.cx, b.cy)

/-- `_create_corridor_between_boxes`: the straight connection between the two
centers turned into an axis-aligned rectangle of width `corridor_width`;
`None` when the center distance is zero. -/
def createCorridorBetweenBoxes (b1 b2 : PBox) (cw : ℚ) : Option Corridor :=
  if sqDist (centerOf b1) (centerOf b2) = 0 then none
  else
    if |b2.cy - b1.cy| < |b2.cx - b1.cx| then
      some ⟨min b1.cx b2.cx, b1.cy - cw / 2, |b2.cx - b1.cx|, cw⟩
    else
      some ⟨b1.cx - cw / 2, min b1.cy b2.cy, cw, |b2.cy - b1.cy|⟩

/-- The corridors list of `_generate_corridor_network`: fewer than two boxes
give no corridors; otherwise one corridor per MST edge over the box centers
whenever the connecting distance is nonzero. The walls of the
`spatial_framework` argument are never consulted. -/
def generateCorridorNetwork (boxes : List PBox) (walls : List Seg) (cw : ℚ) :
    List Corridor :=
  if boxes.length < 2 then []
  else
    (mstEdges (boxes.map centerOf)).filterMap fun e =>
      createCorridorBetweenBoxes (boxes.getD e.1 ⟨0, 0, 0, 0, 0, 0, 0⟩)
        (boxes.getD e.2 ⟨0, 0, 0, 0, 0, 0, 0⟩) cw

/-- Orientation determinant of the triple `(p, q, r)`. -/
def orient2 (p q r : Pt) : ℚ :=
  (q.x - p.x) * (r.y - p.y) - (q.y - p.y) * (r.x - p.x)

/-- The two segments cross properly: the endpoints of each lie strictly on
opposite sides of the other's supporting line. This is the (spec-side)
notion of the straight segment between two unit centers intersecting a
wall, used to state C1. -/
def segmentsProperlyCross (s1 s2 : Seg) : Bool :=
  decide (orient2 s1.a s1.b s2.a * orient2 s1.a s1.b s2.b < 0) &&
  decide (orient2 s2.a s2.b s1.a * orient2 s2.a s2.b s1.b < 0)

/-- Modelled from the spec (§4.3), which this code base does not implement:
the claimed axis-aligned grid fallback — one horizontal corridor per
distinct unit row spanning the full building width, and one vertical
corridor per distinct unit column spanning the full height. -/
def specGridFallback (boxes : List PBox) (dims : Dims) (cw : ℚ) :
    List Corridor :=
  ((boxes.map fun b => b.cy).dedup.map fun y => ⟨0, y - cw / 2, dims.width, cw⟩) ++
  ((boxes.map fun b => b.cx).dedup.map fun x => ⟨x - cw / 2, 0, cw, dims.height⟩)

/-! ## Connectivity of the Kruskal output -/

/-- Reachability through an undirected edge list. -/
inductive Reach (E : List (ℕ × ℕ)) : ℕ → ℕ → Prop
  | refl (i : ℕ) : Reach E i i
  | tail {i j k : ℕ} : Reach E i j → (j, k) ∈ E ∨ (k, j) ∈ E → Reach E i k

/-- Component label of a node in the union–find label list. -/
def lab (labels : List ℕ) (i : ℕ) : ℕ := labels.getD i 0

/-- The union–find invariant: equal labels imply reachability through the
accepted edges. -/
def KInv (n : ℕ) (st : List ℕ × List (ℕ × ℕ)) : Prop :=
  ∀ a b, a < n → b < n → lab st.1 a = lab st.1 b → Reach st.2 a b

/-! ## `_multi_objective_optimization` and determinism of the pipeline -/

/-- The spatial-framework fields consumed by the optimization and corridor
stages. -/
structure Framework where
  dims : Dims
  availableGrid : List GridPoint
  walls : List Seg
deriving DecidableEq, Repr

/-- Everything `_multi_objective_optimization` passes to scipy's
`differential_evolution`: the data captured by the objective closure and the
bounds list. The solver — invoked with the constant `seed=42` and no other
entropy source — is modelled as an arbitrary deterministic function of this
input, returning the solution vector `result.x`, the objective value
`result.fun` and the iteration count `result.nit`. -/
structure DEInput where
  framework : Framework
  boxDims : Dims
  corridorWidth : ℚ
  profile : LayoutProfile
  bounds : List (ℚ × ℚ)
deriving DecidableEq, Repr

/-- The dict returned by `_multi_objective_optimization`. -/
structure PlacementOutcome where
  boxes : List PBox
  score : ℚ
  generations : ℕ
deriving DecidableEq, Repr

/-- `max_boxes = min(int((total_area * target_coverage) / box_area),
len(available_points) // 4)`. -/
def maxBoxesVal (fw : Framework) (bd : Dims) (p : LayoutProfile) : ℤ :=
  min (pyInt (fw.dims.width * fw.dims.height * p.coverage /
        (bd.width * bd.height)))
      ((fw.availableGrid.length / 4 : ℕ) : ℤ)

/-- The DE search-space bounds built by the loop: per candidate box a
point-index range `(0, len(available_points) - 1)` and a use-flag range
`(0, 1)`. -/
def deBounds (k : ℕ) (len : ℕ) : List (ℚ × ℚ) :=
  (List.range k).flatMap fun _ => [((0 : ℚ), (len : ℚ) - 1), (0, 1)]

/-- `IntelligentPlacementEngine._multi_objective_optimization`. -/
def multiObjective (de : DEInput → List ℚ × ℚ × ℕ) (fw : Framework)
    (bd : Dims) (cw : ℚ) (p : LayoutProfile) : PlacementOutcome :=
  if fw.availableGrid = [] then ⟨[], 0, 0⟩
  else if maxBoxesVal fw bd p ≤ 0 then ⟨[], 0, 0⟩
  else
    let r := de ⟨fw, bd, cw, p,
      deBounds (maxBoxesVal fw bd p).toNat fw.availableGrid.length⟩
    ⟨paramsToBoxes r.1 fw.availableGrid bd fw.dims, -r.2.1, r.2.2⟩

/-- The units-and-corridors stage of `optimize_placement`, with the ambient
random state threaded explicitly. No function on this path draws from the
ambient state: the engine's only stochastic step is `differential_evolution`,
which it calls with the hard-coded `seed=42`. -/
def placeAndConnect (de : DEInput → List ℚ × ℚ × ℕ) (fw : Framework)
    (bd : Dims) (cw : ℚ) (p : LayoutProfile) (rng : List ℕ) :
    (List PBox × List Corridor) × List ℕ :=
  (((multiObjective de fw bd cw p).boxes,
    generateCorridorNetwork (multiObjective de fw bd cw p).boxes fw.walls cw),
   rng)

/-! ## `SpaceOptimizer._create_corridor_between_rows` -/

/-- A space-optimizer box: a selected position dict `{x, y}`; all boxes share
the `box_dimensions`. -/
structure SBox where
  x : ℚ
  y : ℚ
deriving DecidableEq, Repr

/-- `row1_max_y = max(box['y'] + box_dimensions['height'] for box in row1)`
over a non-empty row written head-and-tail. -/
def rowMaxTop (b : SBox) (r : List SBox) (bh : ℚ) : ℚ :=
  (r.map fun v => v.y + bh).foldl max (b.y + bh)

/-- `row2_min_y = min(box['y'] for box in row2)` over a non-empty row. -/
def rowMinBottom (b : SBox) (r : List SBox) : ℚ :=
  (r.map fun v => v.y).foldl min b.y

/-- `SpaceOptimizer._create_corridor_between_rows` (with
`self.corridor_width` passed explicitly): `None` for an empty row or when
the inter-row gap is below the corridor width, otherwise a corridor of
height `corridor_width` centered in the gap, spanning the x-extent of both
rows. -/
def createCorridorBetweenRows (cw : ℚ) (row1 row2 : List SBox) (bd : Dims) :
    Option Corridor :=
  match row1, row2 with
  | [], _ => none
  | _, [] => none
  | b1 :: r1, b2 :: r2 =>
    if rowMinBottom b2 r2 - rowMaxTop b1 r1 bd.height < cw then none
    else
      some ⟨((r1 ++ b2 :: r2).map fun v => v.x).foldl min b1.x,
            rowMaxTop b1 r1 bd.height +
              (rowMinBottom b2 r2 - rowMaxTop b1 r1 bd.height - cw) / 2,
            ((r1 ++ b2 :: r2).map fun v => v.x + bd.width).foldl max
                (b1.x + bd.width) -
              ((r1 ++ b2 :: r2).map fun v => v.x).foldl min b1.x,
            cw⟩

/-! ## Theorems -/

theorem boxesOverlap_comm (a b : PBox) : boxesOverlap a b = boxesOverlap b a := by
  simp only [boxesOverlap]
  by_cases hc1 : a.x + a.width ≤ b.x <;>
  by_cases hc2 : b.x + b.width ≤ a.x <;>
  by_cases hc3 : a.y + a.height ≤ b.y <;>
  by_cases hc4 : b.y + b.height ≤ a.y <;>
  simp [hc1, hc2, hc3, hc4, Bool.and_comm]

/-- In one dimension: two open intervals of positive length whose closures
properly straddle each other contain a common point. -/
theorem interval_meet {a w b v : ℚ} (hw : 0 < w) (hv : 0 < v)
    (hab : a < b + v) (hba : b < a + w) :
    ∃ p, a < p ∧ p < a + w ∧ b < p ∧ p < b + v := by
  have hlt : max a b < min (a + w) (b + v) := by
    simp only [max_lt_iff, lt_min_iff]
    exact ⟨⟨by linarith, by linarith⟩, by linarith, by linarith⟩
  refine ⟨(max a b + min (a + w) (b + v)) / 2, ?_, ?_, ?_, ?_⟩
  · linarith [le_max_left a b]
  · linarith [min_le_left (a + w) (b + v)]
  · linarith [le_max_right a b]
  · linarith [min_le_right (a + w) (b + v)]

/-- C9: `SpaceOptimizer._rectangles_overlap` and
`IntelligentPlacementEngine._boxes_overlap` decide the same predicate, and for
rectangles of positive size that predicate holds exactly when the open
interiors intersect (so touching along an edge or corner is not an overlap). -/
theorem overlap_predicates_agree (x1 y1 w1 h1 x2 y2 w2 h2 : ℚ)
    (hw1 : 0 < w1) (hh1 : 0 < h1) (hw2 : 0 < w2) (hh2 : 0 < h2) :
    rectanglesOverlap x1 y1 w1 h1 x2 y2 w2 h2 =
      boxesOverlap ⟨x1, y1, w1, h1, 0, 0, 0⟩ ⟨x2, y2, w2, h2, 0, 0, 0⟩ ∧
    (boxesOverlap ⟨x1, y1, w1, h1, 0, 0, 0⟩ ⟨x2, y2, w2, h2, 0, 0, 0⟩ = true ↔
      interiorsMeet x1 y1 w1 h1 x2 y2 w2 h2) := by
  constructor
  · simp only [rectanglesOverlap, boxesOverlap]
    by_cases hc1 : x1 + w1 ≤ x2 <;>
    by_cases hc2 : x2 + w2 ≤ x1 <;>
    by_cases hc3 : y1 + h1 ≤ y2 <;>
    by_cases hc4 : y2 + h2 ≤ y1 <;>
    simp [hc1, hc2, hc3, hc4, Bool.and_comm, Bool.and_left_comm, Bool.and_assoc]
  · simp only [boxesOverlap, interiorsMeet, Bool.not_eq_true', Bool.or_eq_false_iff,
      decide_eq_false_iff_not, not_le]
    constructor
    · rintro ⟨⟨⟨hx1, hx2⟩, hy1⟩, hy2⟩
      obtain ⟨px, hpx1, hpx2, hpx3, hpx4⟩ := interval_meet hw1 hw2 hx2 hx1
      obtain ⟨py, hpy1, hpy2, hpy3, hpy4⟩ := interval_meet hh1 hh2 hy2 hy1
      exact ⟨px, py, ⟨hpx1, hpx2, hpy1, hpy2⟩, hpx3, hpx4, hpy3, hpy4⟩
    · rintro ⟨px, py, ⟨ha1, ha2, ha3, ha4⟩, hb1, hb2, hb3, hb4⟩
      exact ⟨⟨⟨by linarith, by linarith⟩, by linarith⟩, by linarith⟩

/-- Witness for C9 at a concrete overlapping pair. -/
theorem overlap_predicates_agree_witness :
    (0 : ℚ) < 2 ∧
    (rectanglesOverlap 0 0 2 2 1 1 2 2 =
      boxesOverlap ⟨0, 0, 2, 2, 0, 0, 0⟩ ⟨1, 1, 2, 2, 0, 0, 0⟩ ∧
    (boxesOverlap ⟨0, 0, 2, 2, 0, 0, 0⟩ ⟨1, 1, 2, 2, 0, 0, 0⟩ = true ↔
      interiorsMeet 0 0 2 2 1 1 2 2)) :=
  ⟨by norm_num,
   overlap_predicates_agree 0 0 2 2 1 1 2 2 (by norm_num) (by norm_num)
     (by norm_num) (by norm_num)⟩

theorem placeStep_inv (points : List GridPoint) (bd dims : Dims)
    (acc : List PBox) (pf : ℚ × ℚ)
    (h1 : ∀ b ∈ acc, inBuildingBounds dims b)
    (h2 : acc.Pairwise (fun a b => boxesOverlap a b = false)) :
    (∀ b ∈ placeStep points bd dims acc pf, inBuildingBounds dims b) ∧
    (placeStep points bd dims acc pf).Pairwise
      (fun a b => boxesOverlap a b = false) := by
  unfold placeStep
  split_ifs with hflag hin hany
  · exact ⟨h1, h2⟩
  · have hall : ∀ e ∈ acc,
        boxesOverlap (candidateBox points bd pf.1) e = false := by
      intro e he
      by_contra hne
      exact hany (List.any_eq_true.mpr
        ⟨e, he, by simpa using hne⟩)
    constructor
    · intro b hb
      rcases List.mem_append.mp hb with hb | hb
      · exact h1 b hb
      · simp only [List.mem_singleton] at hb
        subst hb
        exact hin
    · rw [List.pairwise_append]
      refine ⟨h2, List.pairwise_singleton _ _, ?_⟩
      intro a ha c hc
      simp only [List.mem_singleton] at hc
      subst hc
      rw [boxesOverlap_comm]
      exact hall a ha
  · exact ⟨h1, h2⟩
  · exact ⟨h1, h2⟩

theorem foldl_placeStep_inv (points : List GridPoint) (bd dims : Dims)
    (l : List (ℚ × ℚ)) :
    ∀ acc : List PBox, (∀ b ∈ acc, inBuildingBounds dims b) →
      acc.Pairwise (fun a b => boxesOverlap a b = false) →
      (∀ b ∈ l.foldl (placeStep points bd dims) acc, inBuildingBounds dims b) ∧
      (l.foldl (placeStep points bd dims) acc).Pairwise
        (fun a b => boxesOverlap a b = false) := by
  induction l with
  | nil => intro acc h1 h2; exact ⟨h1, h2⟩
  | cons pf rest ih =>
    intro acc h1 h2
    obtain ⟨h1', h2'⟩ := placeStep_inv points bd dims acc pf h1 h2
    exact ih _ h1' h2'

/-- C7 (amended): every box produced by `_params_to_boxes` lies inside the
building rectangle, and the produced boxes are pairwise non-overlapping in
the sense of `_boxes_overlap`. -/
theorem params_to_boxes_bounds_and_disjoint (params : List ℚ)
    (points : List GridPoint) (bd dims : Dims) :
    (∀ b ∈ paramsToBoxes params points bd dims, inBuildingBounds dims b) ∧
    (paramsToBoxes params points bd dims).Pairwise
      (fun a b => boxesOverlap a b = false) :=
  foldl_placeStep_inv points bd dims (toPairs params) []
    (by intro b hb; cases hb) List.Pairwise.nil

/-- C7 counterexample: a parameter vector accepted by `_params_to_boxes`
places two boxes at separation 0, below the '25%' profile's spacing value;
minimum spacing is not enforced, only strict non-overlap. -/
theorem params_to_boxes_spacing_counterexample :
    (paramsToBoxes [0, 1, 1, 1] [⟨1, 1, 1, 1⟩, ⟨3, 1, 1, 1⟩] ⟨2, 2⟩
        ⟨10, 10⟩).length = 2 ∧
    rectSepSq
      ((paramsToBoxes [0, 1, 1, 1] [⟨1, 1, 1, 1⟩, ⟨3, 1, 1, 1⟩] ⟨2, 2⟩
          ⟨10, 10⟩).getD 0 ⟨0, 0, 0, 0, 0, 0, 0⟩)
      ((paramsToBoxes [0, 1, 1, 1] [⟨1, 1, 1, 1⟩, ⟨3, 1, 1, 1⟩] ⟨2, 2⟩
          ⟨10, 10⟩).getD 1 ⟨0, 0, 0, 0, 0, 0, 0⟩) = 0 ∧
    (0 : ℚ) < (resolveLayoutProfile "25%").spacingFactor ^ 2 := by
  have hi0 : pointIdx 0 2 = 0 := rfl
  have hi1 : pointIdx 1 2 = 1 := rfl
  have hrun : paramsToBoxes [0, 1, 1, 1] [⟨1, 1, 1, 1⟩, ⟨3, 1, 1, 1⟩] ⟨2, 2⟩
      ⟨10, 10⟩ = [⟨0, 0, 2, 2, 1, 1, 1⟩, ⟨2, 0, 2, 2, 3, 1, 1⟩] := by
    norm_num [paramsToBoxes, toPairs, placeStep, candidateBox, hi0, hi1,
      inBuildingBounds, boxesOverlap, List.foldl]
  have hp : resolveLayoutProfile "25%" = profile25 := rfl
  refine ⟨?_, ?_, ?_⟩
  · rw [hrun]
    rfl
  · rw [hrun]
    simp only [List.getD]
    simp [rectSepSq, max_def]
  · rw [hp]
    norm_num [profile25]

/-- C3 counterexample: one 2×2 box and one 1×1 corridor in a 10×10 building
give `utilization_rate = 4`, not the claimed
`(unitArea + corridorArea) / buildingArea × 100 = 5`. -/
theorem utilization_rate_counterexample :
    (calculateAdvancedStatistics [⟨0, 0, 2, 2, 1, 1, 1⟩] [⟨0, 0, 1, 1⟩]
        ⟨10, 10⟩).utilizationRate ≠
      ((calculateAdvancedStatistics [⟨0, 0, 2, 2, 1, 1, 1⟩] [⟨0, 0, 1, 1⟩]
          ⟨10, 10⟩).boxArea +
        (calculateAdvancedStatistics [⟨0, 0, 2, 2, 1, 1, 1⟩] [⟨0, 0, 1, 1⟩]
          ⟨10, 10⟩).corridorArea) /
        (calculateAdvancedStatistics [⟨0, 0, 2, 2, 1, 1, 1⟩] [⟨0, 0, 1, 1⟩]
          ⟨10, 10⟩).totalArea * 100 := by
  norm_num [calculateAdvancedStatistics]

/-- C3 (amended): the utilization rate counts only unit area — it is
independent of the corridor list, and for positive building area equals
summed unit area divided by building area times 100. -/
theorem utilization_rate_formula (boxes : List PBox)
    (cs cs' : List Corridor) (dims : Dims)
    (h : 0 < dims.width * dims.height) :
    (calculateAdvancedStatistics boxes cs dims).utilizationRate =
      (calculateAdvancedStatistics boxes cs' dims).utilizationRate ∧
    (calculateAdvancedStatistics boxes cs dims).utilizationRate =
      (boxes.map (fun b => b.width * b.height)).sum /
        (dims.width * dims.height) * 100 := by
  constructor
  · rfl
  · simp [calculateAdvancedStatistics, if_pos h]

/-- Witness for C3's amended theorem at a concrete input. -/
theorem utilization_rate_formula_witness :
    (0 : ℚ) < (10 : ℚ) * 10 ∧
    ((calculateAdvancedStatistics [⟨0, 0, 2, 2, 1, 1, 1⟩] [⟨0, 0, 1, 1⟩]
        ⟨10, 10⟩).utilizationRate =
      (calculateAdvancedStatistics [⟨0, 0, 2, 2, 1, 1, 1⟩] [] ⟨10, 10⟩).utilizationRate ∧
    (calculateAdvancedStatistics [⟨0, 0, 2, 2, 1, 1, 1⟩] [⟨0, 0, 1, 1⟩]
        ⟨10, 10⟩).utilizationRate =
      (([⟨0, 0, 2, 2, 1, 1, 1⟩] : List PBox).map (fun b => b.width * b.height)).sum /
        ((10 : ℚ) * 10) * 100) :=
  ⟨by norm_num,
   utilization_rate_formula [⟨0, 0, 2, 2, 1, 1, 1⟩] [⟨0, 0, 1, 1⟩] [] ⟨10, 10⟩
     (by norm_num)⟩

/-- C4 counterexample: the profile id `"50%"` is not in the catalog, yet
`optimize_placement` resolves it to the `'25%'` profile and proceeds — no
error is surfaced. -/
theorem profile_not_found_counterexample :
    lookupLayoutProfile "50%" = none ∧
    resolveLayoutProfile "50%" = profile25 ∧
    lookupLayoutProfile "25%" = some profile25 :=
  ⟨rfl, rfl, rfl⟩

/-- C4 (amended): any profile identifier outside the fixed catalog is
silently replaced by the `'25%'` profile. -/
theorem unknown_profile_defaults (s : String)
    (h : lookupLayoutProfile s = none) :
    resolveLayoutProfile s = profile25 := by
  simp [resolveLayoutProfile, h]

/-- Witness for C4's amended theorem at the concrete id `"50%"`. -/
theorem unknown_profile_defaults_witness :
    lookupLayoutProfile "50%" = none ∧ resolveLayoutProfile "50%" = profile25 :=
  ⟨rfl, unknown_profile_defaults "50%" rfl⟩

/-- C5 (amended): `_validate_constraints` evaluates every wall-clearance,
boundary-margin and restricted-zone check without short-circuiting and
returns `true` exactly when all of them pass. (It returns only this boolean
— the violations text stays internal — and it never consults existing
units.) -/
theorem validate_constraints_characterization (dist : Seg → BRect → ℚ)
    (inter : List Pt → BRect → Bool) (pos : Pt) (nd : Dims) (plan : PlanData) :
    validateConstraints dist inter pos nd plan = true ↔
      ((∀ w ∈ plan.walls,
          ¬ dist w ⟨pos.x, pos.y, nd.width, nd.height⟩ < 1/2) ∧
       ¬ pos.x < 3/10 ∧ ¬ pos.y < 3/10 ∧
       ¬ plan.dims.width - 3/10 < pos.x + nd.width ∧
       ¬ plan.dims.height - 3/10 < pos.y + nd.height ∧
       (∀ z ∈ plan.noEntry, ∀ poly, z.polygon = some poly →
          inter poly ⟨pos.x, pos.y, nd.width, nd.height⟩ = false)) := by
  simp only [validateConstraints, beq_iff_eq, List.length_eq_zero,
    validateViolations, List.append_eq_nil, List.filterMap_eq_nil]
  constructor
  · rintro ⟨hw, hb1, hb2, hb3, hb4, hz⟩
    refine ⟨?_, ?_, ?_, ?_, ?_, ?_⟩
    · intro w hmem hlt
      have := hw w hmem
      rw [if_pos hlt] at this
      exact Option.some_ne_none _ this
    · intro hlt
      rw [if_pos hlt] at hb1
      exact List.cons_ne_nil _ _ hb1
    · intro hlt
      rw [if_pos hlt] at hb2
      exact List.cons_ne_nil _ _ hb2
    · intro hlt
      rw [if_pos hlt] at hb3
      exact List.cons_ne_nil _ _ hb3
    · intro hlt
      rw [if_pos hlt] at hb4
      exact List.cons_ne_nil _ _ hb4
    · intro z hmem poly hpoly
      have := hz z hmem
      rw [hpoly] at this
      simp only [Option.some_bind] at this
      by_contra hne
      rw [if_pos (by simpa using hne)] at this
      exact Option.some_ne_none _ this
  · rintro ⟨hw, hb1, hb2, hb3, hb4, hz⟩
    refine ⟨?_, ?_, ?_, ?_, ?_, ?_⟩
    · intro w hmem
      rw [if_neg (hw w hmem)]
    · rw [if_neg hb1]
    · rw [if_neg hb2]
    · rw [if_neg hb3]
    · rw [if_neg hb4]
    · intro z hmem
      cases hpoly : z.polygon with
      | none => rfl
      | some poly =>
        simp only [Option.some_bind]
        rw [if_neg (by simp [hz z hmem poly hpoly])]

/-- C5 counterexample: a candidate that completely covers an existing unit
(so the claimed pairwise non-overlap check must fail) is nevertheless
reported valid — `_validate_constraints` never receives or consults
existing units, and it returns a bare boolean rather than a
`{valid, violations}` record. -/
theorem validate_ignores_existing_units :
    validateConstraints (fun _ _ => 0) (fun _ _ => false) ⟨1, 1⟩ ⟨2, 2⟩
      ⟨⟨10, 10⟩, [], []⟩ = true ∧
    boxesOverlap ⟨1, 1, 2, 2, 2, 2, 0⟩ ⟨1, 1, 2, 2, 2, 2, 0⟩ = true := by
  constructor
  · norm_num [validateConstraints, validateViolations]
  · norm_num [boxesOverlap]

theorem mem_completeEdges {n i j : ℕ} :
    (i, j) ∈ completeEdges n ↔ i < j ∧ j < n := by
  simp only [completeEdges, List.mem_flatMap, List.mem_map, List.mem_filter,
    List.mem_range, decide_eq_true_eq]
  constructor
  · rintro ⟨a, ha, b, ⟨hbn, hab⟩, heq⟩
    obtain ⟨h1, h2⟩ := Prod.mk.injEq a b i j ▸ heq
    exact ⟨h1 ▸ h2 ▸ hab, h2 ▸ hbn⟩
  · rintro ⟨hij, hjn⟩
    exact ⟨i, lt_trans hij hjn, j, ⟨hjn, hij⟩, rfl⟩

/-- C1 (amended): edge admissibility never tests walls — every pair `(i, j)`
with `i < j` of unit indices is an edge of the complete graph handed to the
MST, and the emitted corridor list is unchanged under any replacement of the
wall set. -/
theorem corridor_edges_ignore_walls (boxes : List PBox) (i j : ℕ)
    (hij : i < j) (hj : j < boxes.length) (walls walls' : List Seg) (cw : ℚ) :
    (i, j) ∈ completeEdges (boxes.map centerOf).length ∧
    generateCorridorNetwork boxes walls cw =
      generateCorridorNetwork boxes walls' cw := by
  constructor
  · rw [List.length_map]
    exact mem_completeEdges.mpr ⟨hij, hj⟩
  · rfl

/-- Witness for C1's amended theorem at two concrete boxes. -/
theorem corridor_edges_ignore_walls_witness :
    (0 : ℕ) < 1 ∧
    1 < ([⟨0, 0, 2, 2, 1, 1, 1⟩, ⟨4, 0, 2, 2, 5, 1, 1⟩] : List PBox).length ∧
    ((0, 1) ∈ completeEdges
        (([⟨0, 0, 2, 2, 1, 1, 1⟩, ⟨4, 0, 2, 2, 5, 1, 1⟩] : List PBox).map
          centerOf).length ∧
      generateCorridorNetwork [⟨0, 0, 2, 2, 1, 1, 1⟩, ⟨4, 0, 2, 2, 5, 1, 1⟩]
          [⟨⟨3, -1⟩, ⟨3, 2⟩⟩] 1 =
        generateCorridorNetwork [⟨0, 0, 2, 2, 1, 1, 1⟩, ⟨4, 0, 2, 2, 5, 1, 1⟩]
          [] 1) :=
  ⟨by norm_num, by norm_num,
   corridor_edges_ignore_walls _ 0 1 (by norm_num) (by norm_num) _ _ 1⟩

/-- C1 counterexample: two units whose center segment properly crosses a
wall still get a corridor — `_generate_corridor_network` and
`_create_minimum_spanning_tree` never test walls. -/
theorem corridor_crosses_wall_counterexample :
    (generateCorridorNetwork [⟨0, 0, 2, 2, 1, 1, 1⟩, ⟨4, 0, 2, 2, 5, 1, 1⟩]
        [⟨⟨3, -1⟩, ⟨3, 2⟩⟩] 1).length = 1 ∧
    segmentsProperlyCross ⟨⟨1, 1⟩, ⟨5, 1⟩⟩ ⟨⟨3, -1⟩, ⟨3, 2⟩⟩ = true := by
  constructor
  · have hmst : mstEdges
        (([⟨0, 0, 2, 2, 1, 1, 1⟩, ⟨4, 0, 2, 2, 5, 1, 1⟩] : List PBox).map
          centerOf) = [(0, 1)] := rfl
    rw [generateCorridorNetwork, if_neg (by norm_num), hmst]
    norm_num [createCorridorBetweenBoxes, sqDist, centerOf, List.getD,
      List.filterMap_cons, List.getElem?_cons_zero, List.getElem?_cons_succ,
      abs_eq_max_neg, max_def]
  · norm_num [segmentsProperlyCross, orient2]

theorem Reach.trans {E : List (ℕ × ℕ)} {a b c : ℕ}
    (h1 : Reach E a b) (h2 : Reach E b c) : Reach E a c := by
  induction h2 with
  | refl => exact h1
  | tail _ he ih => exact Reach.tail ih he

theorem Reach.single {E : List (ℕ × ℕ)} {a b : ℕ}
    (he : (a, b) ∈ E ∨ (b, a) ∈ E) : Reach E a b :=
  Reach.tail (Reach.refl a) he

theorem Reach.symm {E : List (ℕ × ℕ)} {a b : ℕ} (h : Reach E a b) :
    Reach E b a := by
  induction h with
  | refl => exact Reach.refl _
  | tail _ he ih => exact Reach.trans (Reach.single he.symm) ih

theorem Reach.mono {E E' : List (ℕ × ℕ)} (hsub : ∀ x ∈ E, x ∈ E')
    {a b : ℕ} (h : Reach E a b) : Reach E' a b := by
  induction h with
  | refl => exact Reach.refl _
  | tail _ he ih => exact Reach.tail ih (he.imp (hsub _) (hsub _))

theorem getD_map {α β : Type} (f : α → β) (l : List α) (i : ℕ) (d : α)
    (d' : β) (h : i < l.length) :
    (l.map f).getD i d' = f (l.getD i d) := by
  rw [List.getD_eq_getElem _ _ (by simpa using h), List.getD_eq_getElem _ _ h,
    List.getElem_map]

theorem kruskalStep_length (st : List ℕ × List (ℕ × ℕ)) (e : ℕ × ℕ) :
    (kruskalStep st e).1.length = st.1.length := by
  unfold kruskalStep
  split
  · rfl
  · simp

theorem kruskalStep_acc (st : List ℕ × List (ℕ × ℕ)) (e : ℕ × ℕ) :
    (kruskalStep st e).2 = st.2 ∨ (kruskalStep st e).2 = st.2 ++ [e] := by
  unfold kruskalStep
  split
  · exact Or.inl rfl
  · exact Or.inr rfl

theorem kruskalStep_preserves_eq (st : List ℕ × List (ℕ × ℕ)) (e : ℕ × ℕ)
    {a b : ℕ} (ha : a < st.1.length) (hb : b < st.1.length)
    (h : lab st.1 a = lab st.1 b) :
    lab (kruskalStep st e).1 a = lab (kruskalStep st e).1 b := by
  unfold kruskalStep
  split
  · exact h
  · dsimp only
    unfold lab
    rw [getD_map _ _ _ 0 _ ha, getD_map _ _ _ 0 _ hb]
    unfold lab at h
    rw [h]

theorem kruskalStep_merges (st : List ℕ × List (ℕ × ℕ)) (e : ℕ × ℕ)
    (h1 : e.1 < st.1.length) (h2 : e.2 < st.1.length) :
    lab (kruskalStep st e).1 e.1 = lab (kruskalStep st e).1 e.2 := by
  unfold kruskalStep
  split
  · assumption
  · rename_i hne
    dsimp only
    unfold lab
    rw [getD_map _ _ _ 0 _ h1, getD_map _ _ _ 0 _ h2]
    rw [if_neg hne, if_pos rfl]

theorem foldl_kruskalStep_length (L : List (ℕ × ℕ))
    (st : List ℕ × List (ℕ × ℕ)) :
    (L.foldl kruskalStep st).1.length = st.1.length := by
  induction L generalizing st with
  | nil => rfl
  | cons e t ih => rw [List.foldl_cons, ih, kruskalStep_length]

theorem foldl_kruskalStep_preserves_eq (L : List (ℕ × ℕ))
    (st : List ℕ × List (ℕ × ℕ)) {a b : ℕ}
    (ha : a < st.1.length) (hb : b < st.1.length)
    (h : lab st.1 a = lab st.1 b) :
    lab (L.foldl kruskalStep st).1 a = lab (L.foldl kruskalStep st).1 b := by
  induction L generalizing st with
  | nil => exact h
  | cons e t ih =>
    rw [List.foldl_cons]
    exact ih _ (by rw [kruskalStep_length]; exact ha)
      (by rw [kruskalStep_length]; exact hb)
      (kruskalStep_preserves_eq st e ha hb h)

theorem foldl_kruskalStep_merges (L : List (ℕ × ℕ))
    (st : List ℕ × List (ℕ × ℕ)) (e : ℕ × ℕ) (he : e ∈ L)
    (h1 : e.1 < st.1.length) (h2 : e.2 < st.1.length) :
    lab (L.foldl kruskalStep st).1 e.1 =
      lab (L.foldl kruskalStep st).1 e.2 := by
  induction L generalizing st with
  | nil => cases he
  | cons f t ih =>
    rw [List.foldl_cons]
    rcases List.mem_cons.mp he with heq | hmem
    · subst heq
      exact foldl_kruskalStep_preserves_eq t _
        (by rw [kruskalStep_length]; exact h1)
        (by rw [kruskalStep_length]; exact h2)
        (kruskalStep_merges st e h1 h2)
    · exact ih (kruskalStep st f) hmem
        (by rw [kruskalStep_length]; exact h1)
        (by rw [kruskalStep_length]; exact h2)

theorem foldl_kruskalStep_acc_sub (L : List (ℕ × ℕ))
    (st : List ℕ × List (ℕ × ℕ)) :
    ∀ x ∈ (L.foldl kruskalStep st).2, x ∈ st.2 ∨ x ∈ L := by
  induction L generalizing st with
  | nil => exact fun x hx => Or.inl hx
  | cons e t ih =>
    intro x hx
    rw [List.foldl_cons] at hx
    rcases ih (kruskalStep st e) x hx with hx' | hx'
    · rcases kruskalStep_acc st e with hacc | hacc
      · exact Or.inl (hacc ▸ hx')
      · rw [hacc] at hx'
        rcases List.mem_append.mp hx' with h | h
        · exact Or.inl h
        · simp only [List.mem_singleton] at h
          exact Or.inr (h ▸ List.mem_cons_self _ _)
    · exact Or.inr (List.mem_cons_of_mem _ hx')

theorem kruskalStep_KInv {n : ℕ} (st : List ℕ × List (ℕ × ℕ)) (e : ℕ × ℕ)
    (hlen : st.1.length = n) (h1 : e.1 < n) (h2 : e.2 < n)
    (hinv : KInv n st) : KInv n (kruskalStep st e) := by
  intro a b ha hb hab
  unfold kruskalStep at hab ⊢
  by_cases hc : st.1.getD e.1 0 = st.1.getD e.2 0
  · rw [if_pos hc] at hab ⊢
    exact hinv a b ha hb hab
  · rw [if_neg hc] at hab ⊢
    dsimp only at hab ⊢
    unfold lab at hab
    rw [getD_map _ _ _ 0 _ (hlen ▸ ha), getD_map _ _ _ 0 _ (hlen ▸ hb)] at hab
    have hsub : ∀ x ∈ st.2, x ∈ st.2 ++ [e] :=
      fun x hx => List.mem_append_left _ hx
    have hedge : (e.1, e.2) ∈ st.2 ++ [e] := by
      apply List.mem_append_right
      simp
    by_cases hla : st.1.getD a 0 = st.1.getD e.2 0 <;>
    by_cases hlb : st.1.getD b 0 = st.1.getD e.2 0
    · exact Reach.mono hsub (hinv a b ha hb (hla.trans hlb.symm))
    · rw [if_pos hla, if_neg hlb] at hab
      have r1 : Reach st.2 a e.2 := hinv a e.2 ha h2 hla
      have r2 : Reach st.2 e.1 b := hinv e.1 b h1 hb hab
      exact Reach.trans (Reach.mono hsub r1)
        (Reach.trans (Reach.single (Or.inr hedge)) (Reach.mono hsub r2))
    · rw [if_neg hla, if_pos hlb] at hab
      have r1 : Reach st.2 a e.1 := hinv a e.1 ha h1 hab
      have r2 : Reach st.2 e.2 b := hinv e.2 b h2 hb hlb.symm
      exact Reach.trans (Reach.mono hsub r1)
        (Reach.trans (Reach.single (Or.inl hedge)) (Reach.mono hsub r2))
    · rw [if_neg hla, if_neg hlb] at hab
      exact Reach.mono hsub (hinv a b ha hb hab)

theorem foldl_kruskalStep_KInv {n : ℕ} (L : List (ℕ × ℕ))
    (st : List ℕ × List (ℕ × ℕ)) (hlen : st.1.length = n)
    (hL : ∀ e ∈ L, e.1 < n ∧ e.2 < n) (hinv : KInv n st) :
    KInv n (L.foldl kruskalStep st) := by
  induction L generalizing st with
  | nil => exact hinv
  | cons e t ih =>
    rw [List.foldl_cons]
    exact ih _ (by rw [kruskalStep_length]; exact hlen)
      (fun f hf => hL f (List.mem_cons_of_mem _ hf))
      (kruskalStep_KInv st e hlen (hL e (List.mem_cons_self _ _)).1
        (hL e (List.mem_cons_self _ _)).2 hinv)

theorem KInv_init (n : ℕ) : KInv n (List.range n, []) := by
  intro a b ha hb hab
  unfold lab at hab
  rw [List.getD_eq_getElem _ _ (by simpa using ha),
    List.getD_eq_getElem _ _ (by simpa using hb)] at hab
  simp only [List.getElem_range] at hab
  subst hab
  exact Reach.refl _

theorem kruskal_connects (n : ℕ) (es : List (ℕ × ℕ))
    (hb : ∀ e ∈ es, e.1 < n ∧ e.2 < n)
    (hcomplete : ∀ i j, i < j → j < n → (i, j) ∈ es) :
    ∀ i j, i < n → j < n → Reach (kruskalMST n es) i j := by
  have hlen0 : (List.range n, ([] : List (ℕ × ℕ))).1.length = n := by simp
  have hfin := foldl_kruskalStep_KInv es _ hlen0 hb (KInv_init n)
  intro i j hi hj
  rcases lt_trichotomy i j with h | h | h
  · have hm := foldl_kruskalStep_merges es (List.range n, []) (i, j)
      (hcomplete i j h hj) (by simpa using hi) (by simpa using hj)
    exact hfin i j hi hj hm
  · subst h
    exact Reach.refl _
  · have hm := foldl_kruskalStep_merges es (List.range n, []) (j, i)
      (hcomplete j i h hi) (by simpa using hj) (by simpa using hi)
    exact (hfin j i hj hi hm).symm

theorem mem_insertSorted {key : ℕ × ℕ → ℚ} {e x : ℕ × ℕ}
    {l : List (ℕ × ℕ)} : x ∈ insertSorted key e l ↔ x = e ∨ x ∈ l := by
  induction l with
  | nil => simp [insertSorted]
  | cons f t ih =>
    unfold insertSorted
    split
    · simp [List.mem_cons]
    · simp only [List.mem_cons, ih]
      tauto

theorem mem_sortEdges {key : ℕ × ℕ → ℚ} {l : List (ℕ × ℕ)} {x : ℕ × ℕ} :
    x ∈ sortEdges key l ↔ x ∈ l := by
  induction l with
  | nil => simp [sortEdges]
  | cons e t ih =>
    unfold sortEdges
    rw [mem_insertSorted]
    simp [ih]

theorem mem_completeEdges' {n : ℕ} {e : ℕ × ℕ} (h : e ∈ completeEdges n) :
    e.1 < e.2 ∧ e.2 < n := by
  obtain ⟨i, j⟩ := e
  exact mem_completeEdges.mp h

theorem sqDist_eq_zero_iff {p q : ℚ × ℚ} : sqDist p q = 0 ↔ p = q := by
  unfold sqDist
  constructor
  · intro h
    have h1 : (p.1 - q.1) ^ 2 = 0 := by
      nlinarith [sq_nonneg (p.1 - q.1), sq_nonneg (p.2 - q.2)]
    have h2 : (p.2 - q.2) ^ 2 = 0 := by
      nlinarith [sq_nonneg (p.1 - q.1), sq_nonneg (p.2 - q.2)]
    have e1 : p.1 = q.1 := by
      have hz := (pow_eq_zero_iff (two_ne_zero)).mp h1
      linarith [sub_eq_zero.mp hz]
    have e2 : p.2 = q.2 := by
      have hz := (pow_eq_zero_iff (two_ne_zero)).mp h2
      linarith [sub_eq_zero.mp hz]
    exact Prod.ext e1 e2
  · rintro rfl
    ring

theorem createCorridor_isSome {b1 b2 : PBox} {cw : ℚ}
    (h : centerOf b1 ≠ centerOf b2) :
    (createCorridorBetweenBoxes b1 b2 cw).isSome := by
  unfold createCorridorBetweenBoxes
  rw [if_neg (fun hc => h (sqDist_eq_zero_iff.mp hc))]
  split <;> rfl

theorem filterMap_length_of_all_isSome {α β : Type} (f : α → Option β)
    (l : List α) (h : ∀ a ∈ l, (f a).isSome) :
    (l.filterMap f).length = l.length := by
  induction l with
  | nil => rfl
  | cons a t ih =>
    rw [List.filterMap_cons]
    cases hfa : f a with
    | none =>
      exact absurd (hfa ▸ h a (List.mem_cons_self _ _)) (by simp)
    | some b =>
      simp only [List.length_cons]
      rw [ih (fun x hx => h x (List.mem_cons_of_mem _ hx))]

theorem mstEdges_sub {pts : List (ℚ × ℚ)} {e : ℕ × ℕ}
    (he : e ∈ mstEdges pts) : e.1 < e.2 ∧ e.2 < pts.length := by
  unfold mstEdges kruskalMST at he
  rcases foldl_kruskalStep_acc_sub _ _ e he with h | h
  · cases h
  · exact mem_completeEdges' (mem_sortEdges.mp h)

/-- C2 (amended): with at least two placed units with pairwise distinct
centers, the MST edge set emitted by `_generate_corridor_network` connects
all units, and every MST edge yields a corridor (one corridor per edge).
There is no grid fallback in this code: with fewer than two units the
corridor list is simply empty. -/
theorem corridor_network_connects (boxes : List PBox) (walls : List Seg)
    (cw : ℚ)
    (hd : (boxes.map centerOf).Pairwise (fun p q => p ≠ q))
    (h2 : 2 ≤ boxes.length) :
    (∀ i j, i < boxes.length → j < boxes.length →
      Reach (mstEdges (boxes.map centerOf)) i j) ∧
    (generateCorridorNetwork boxes walls cw).length =
      (mstEdges (boxes.map centerOf)).length := by
  have hlen : (boxes.map centerOf).length = boxes.length := List.length_map _ _
  constructor
  · intro i j hi hj
    apply kruskal_connects (boxes.map centerOf).length _ _ _ i j
      (hlen ▸ hi) (hlen ▸ hj)
    · intro e he
      have h' := mem_completeEdges' (mem_sortEdges.mp he)
      exact ⟨lt_trans h'.1 h'.2, h'.2⟩
    · intro i' j' hij' hj'
      exact mem_sortEdges.mpr (mem_completeEdges.mpr ⟨hij', hj'⟩)
  · unfold generateCorridorNetwork
    rw [if_neg (by omega)]
    apply filterMap_length_of_all_isSome
    intro e he
    obtain ⟨h1, h2'⟩ := mstEdges_sub he
    have he2 : e.2 < boxes.length := hlen ▸ h2'
    have he1 : e.1 < boxes.length := lt_trans h1 he2
    apply createCorridor_isSome
    have hp := List.pairwise_iff_getElem.mp hd e.1 e.2
      (by rw [hlen]; exact he1) (by rw [hlen]; exact he2) h1
    intro hceq
    apply hp
    rw [List.getElem_map, List.getElem_map]
    rw [← List.getD_eq_getElem boxes ⟨0, 0, 0, 0, 0, 0, 0⟩ he1,
      ← List.getD_eq_getElem boxes ⟨0, 0, 0, 0, 0, 0, 0⟩ he2]
    exact hceq

/-- Witness for C2's amended theorem at two concrete boxes with distinct
centers. -/
theorem corridor_network_connects_witness :
    (([⟨0, 0, 2, 2, 1, 1, 1⟩, ⟨4, 0, 2, 2, 5, 1, 1⟩] : List PBox).map
      centerOf).Pairwise (fun p q => p ≠ q) ∧
    2 ≤ ([⟨0, 0, 2, 2, 1, 1, 1⟩, ⟨4, 0, 2, 2, 5, 1, 1⟩] : List PBox).length ∧
    ((∀ i j, i < ([⟨0, 0, 2, 2, 1, 1, 1⟩, ⟨4, 0, 2, 2, 5, 1, 1⟩] :
          List PBox).length →
        j < ([⟨0, 0, 2, 2, 1, 1, 1⟩, ⟨4, 0, 2, 2, 5, 1, 1⟩] :
          List PBox).length →
        Reach (mstEdges (([⟨0, 0, 2, 2, 1, 1, 1⟩, ⟨4, 0, 2, 2, 5, 1, 1⟩] :
          List PBox).map centerOf)) i j) ∧
      (generateCorridorNetwork [⟨0, 0, 2, 2, 1, 1, 1⟩, ⟨4, 0, 2, 2, 5, 1, 1⟩]
          [] (6/5)).length =
        (mstEdges (([⟨0, 0, 2, 2, 1, 1, 1⟩, ⟨4, 0, 2, 2, 5, 1, 1⟩] :
          List PBox).map centerOf)).length) :=
  ⟨by norm_num [centerOf, List.pairwise_cons, Prod.ext_iff],
   by norm_num,
   corridor_network_connects _ [] (6/5)
     (by norm_num [centerOf, List.pairwise_cons, Prod.ext_iff])
     (by norm_num)⟩

/-- C2 counterexample: with a single placed unit the code emits no corridors
at all, whereas the claimed axis-aligned grid fallback (one horizontal
corridor for the one unit row and one vertical corridor for the one unit
column) would be nonempty. -/
theorem single_unit_no_fallback_counterexample :
    generateCorridorNetwork [⟨0, 0, 2, 2, 1, 1, 1⟩] [] 1 = [] ∧
    (specGridFallback [⟨0, 0, 2, 2, 1, 1, 1⟩] ⟨10, 10⟩ 1).length = 2 := by
  constructor
  · rfl
  · rfl

/-- C6: the placement-and-corridor pipeline is a deterministic function of
its declared inputs. Its result is independent of the ambient random state
(which it returns untouched), so two runs on identical geometry, box
dimensions, corridor width and profile — hence in particular two runs with
the same seed — produce identical units and identical corridors. -/
theorem optimizer_deterministic (de : DEInput → List ℚ × ℚ × ℕ)
    (fw : Framework) (bd : Dims) (cw : ℚ) (p : LayoutProfile)
    (rng rng' : List ℕ) :
    (placeAndConnect de fw bd cw p rng).1 =
      (placeAndConnect de fw bd cw p rng').1 ∧
    (placeAndConnect de fw bd cw p rng).2 = rng :=
  ⟨rfl, rfl⟩

/-- C8: an empty available grid, or a non-positive target box count, makes
`_multi_objective_optimization` return the empty placement normally, and the
corridor network of the empty placement is empty. -/
theorem empty_input_gives_empty_result (de : DEInput → List ℚ × ℚ × ℕ)
    (fw : Framework) (bd : Dims) (cw : ℚ) (p : LayoutProfile)
    (h : fw.availableGrid = [] ∨ maxBoxesVal fw bd p ≤ 0) :
    (multiObjective de fw bd cw p).boxes = [] ∧
    generateCorridorNetwork (multiObjective de fw bd cw p).boxes fw.walls
      cw = [] := by
  have hb : (multiObjective de fw bd cw p).boxes = [] := by
    unfold multiObjective
    rcases h with h | h
    · rw [if_pos h]
    · by_cases hg : fw.availableGrid = []
      · rw [if_pos hg]
      · rw [if_neg hg, if_pos h]
  refine ⟨hb, ?_⟩
  rw [hb]
  rfl

/-- Witness for C8 at a concrete framework with an empty available grid. -/
theorem empty_input_gives_empty_result_witness :
    ((Framework.mk ⟨10, 10⟩ [] []).availableGrid = [] ∨
      maxBoxesVal ⟨⟨10, 10⟩, [], []⟩ ⟨2, 2⟩ profile25 ≤ 0) ∧
    ((multiObjective (fun _ => ([], 0, 0)) ⟨⟨10, 10⟩, [], []⟩ ⟨2, 2⟩ (6/5)
        profile25).boxes = [] ∧
     generateCorridorNetwork
       (multiObjective (fun _ => ([], 0, 0)) ⟨⟨10, 10⟩, [], []⟩ ⟨2, 2⟩ (6/5)
         profile25).boxes (Framework.mk ⟨10, 10⟩ [] []).walls (6/5) = []) :=
  ⟨Or.inl rfl,
   empty_input_gives_empty_result (fun _ => ([], 0, 0)) ⟨⟨10, 10⟩, [], []⟩
     ⟨2, 2⟩ (6/5) profile25 (Or.inl rfl)⟩

theorem foldl_max_ge (l : List ℚ) (init : ℚ) : init ≤ l.foldl max init := by
  induction l generalizing init with
  | nil => exact le_refl _
  | cons a t ih => exact le_trans (le_max_left _ _) (ih _)

theorem foldl_max_mem_le (l : List ℚ) (init : ℚ) :
    ∀ x ∈ l, x ≤ l.foldl max init := by
  induction l generalizing init with
  | nil => intro x hx; cases hx
  | cons a t ih =>
    intro x hx
    rcases List.mem_cons.mp hx with rfl | hx
    · exact le_trans (le_max_right init x) (foldl_max_ge t _)
    · exact ih _ x hx

theorem foldl_min_le (l : List ℚ) (init : ℚ) : l.foldl min init ≤ init := by
  induction l generalizing init with
  | nil => exact le_refl _
  | cons a t ih => exact le_trans (ih _) (min_le_left _ _)

theorem foldl_min_mem_ge (l : List ℚ) (init : ℚ) :
    ∀ x ∈ l, l.foldl min init ≤ x := by
  induction l generalizing init with
  | nil => intro x hx; cases hx
  | cons a t ih =>
    intro x hx
    rcases List.mem_cons.mp hx with rfl | hx
    · exact le_trans (foldl_min_le t _) (min_le_right init x)
    · exact ih _ x hx

/-- C10: for non-empty rows and a positive corridor width,
`_create_corridor_between_rows` returns `None` exactly when the gap between
the first row's top and the second row's bottom is smaller than the corridor
width; an emitted corridor has height exactly the corridor width, lies
within the gap, and clears every box of both rows vertically. -/
theorem corridor_between_rows_spec (cw : ℚ) (b1 b2 : SBox)
    (r1 r2 : List SBox) (bd : Dims) (hcw : 0 < cw) :
    (createCorridorBetweenRows cw (b1 :: r1) (b2 :: r2) bd = none ↔
      rowMinBottom b2 r2 - rowMaxTop b1 r1 bd.height < cw) ∧
    ∀ c, createCorridorBetweenRows cw (b1 :: r1) (b2 :: r2) bd = some c →
      c.height = cw ∧
      rowMaxTop b1 r1 bd.height ≤ c.y ∧
      c.y + c.height ≤ rowMinBottom b2 r2 ∧
      (∀ b ∈ b1 :: r1, b.y + bd.height ≤ c.y) ∧
      (∀ b ∈ b2 :: r2, c.y + c.height ≤ b.y) := by
  unfold createCorridorBetweenRows
  dsimp only
  by_cases hgap : rowMinBottom b2 r2 - rowMaxTop b1 r1 bd.height < cw
  · rw [if_pos hgap]
    refine ⟨⟨fun _ => hgap, fun _ => rfl⟩, ?_⟩
    intro c hc
    cases hc
  · rw [if_neg hgap]
    push_neg at hgap
    constructor
    · constructor
      · intro h
        cases h
      · intro h
        exact absurd h (not_lt.mpr hgap)
    · intro c hc
      obtain rfl := (Option.some_inj.mp hc).symm
      have htop : ∀ b ∈ b1 :: r1,
          b.y + bd.height ≤ rowMaxTop b1 r1 bd.height := by
        intro b hb
        rcases List.mem_cons.mp hb with rfl | hb
        · exact foldl_max_ge _ _
        · exact foldl_max_mem_le _ _ _
            (List.mem_map_of_mem (fun v => v.y + bd.height) hb)
      have hbot : ∀ b ∈ b2 :: r2, rowMinBottom b2 r2 ≤ b.y := by
        intro b hb
        rcases List.mem_cons.mp hb with rfl | hb
        · exact foldl_min_le _ _
        · exact foldl_min_mem_ge _ _ _
            (List.mem_map_of_mem (fun v => v.y) hb)
      refine ⟨rfl, by dsimp only; linarith, by dsimp only; linarith, ?_, ?_⟩
      · intro b hb
        have := htop b hb
        dsimp only
        linarith
      · intro b hb
        have := hbot b hb
        dsimp only
        linarith

/-- Witness for C10 at concrete rows with a sufficient gap. -/
theorem corridor_between_rows_spec_witness :
    (0 : ℚ) < 1 ∧
    ((createCorridorBetweenRows 1 [⟨0, 0⟩] [⟨0, 4⟩] ⟨2, 2⟩ = none ↔
      rowMinBottom ⟨0, 4⟩ [] - rowMaxTop ⟨0, 0⟩ [] (2 : ℚ) < 1) ∧
    ∀ c, createCorridorBetweenRows 1 [⟨0, 0⟩] [⟨0, 4⟩] ⟨2, 2⟩ = some c →
      c.height = 1 ∧
      rowMaxTop ⟨0, 0⟩ [] (2 : ℚ) ≤ c.y ∧
      c.y + c.height ≤ rowMinBottom ⟨0, 4⟩ [] ∧
      (∀ b ∈ [(⟨0, 0⟩ : SBox)], b.y + (2 : ℚ) ≤ c.y) ∧
      (∀ b ∈ [(⟨0, 4⟩ : SBox)], c.y + c.height ≤ b.y)) :=
  ⟨by norm_num, corridor_between_rows_spec 1 ⟨0, 0⟩ ⟨0, 4⟩ [] [] ⟨2, 2⟩
    (by norm_num)⟩
